import Mathlib

/-!
Verification of the tariff-simulator frontend against its specification.

The TypeScript sources are embedded shallowly: pure functions become Lean
functions, fetch interactions become explicit outcome values, JavaScript
numbers are modelled as `Option ℚ` (`none` standing for `NaN`), and
JavaScript string operations are modelled over `String.data` character
lists with JS semantics (`startsWith`, `slice`, `endsWith`, `includes`).
-/

/-- JS `s.startsWith(p)`: `p` is a leading substring of `s`. -/
def jsStartsWith (s p : String) : Bool :=
  s.data.take p.data.length = p.data

/-- JS `s.slice(n)` for non-negative `n`: drop the first `n` characters. -/
def jsSlice (s : String) (n : Nat) : String :=
  ⟨s.data.drop n⟩

/-- JS `s.endsWith(p)`: `p` is a trailing substring of `s`. -/
def jsEndsWith (s p : String) : Bool :=
  s.data.drop (s.data.length - p.data.length) = p.data

/-- JS `s.includes(p)`: `p` occurs contiguously inside `s`. -/
def jsIncludes (s p : String) : Bool :=
  (List.range (s.data.length + 1)).any
    (fun i => ((s.data.drop i).take p.data.length = p.data : Bool))

/-- JS `Array.prototype.findIndex`, returning `none` instead of `-1`. -/
def jsFindIndex (p : α → Bool) : List α → Option Nat
  | [] => none
  | a :: l => if p a then some 0 else (jsFindIndex p l).map (· + 1)

lemma jsStartsWith_append_self (s pre : String) :
    jsStartsWith (pre ++ s) pre = true := by
  simp [jsStartsWith, String.data_append, List.take_append]

lemma jsSlice_append_one (s : String) (c : Char) :
    jsSlice (⟨[c]⟩ ++ s) 1 = s := by
  cases s
  simp [jsSlice, String.data_append]

/- ### `frontend/lib/apiConfig` (`supabaseClient.ts` companion) -/

namespace ApiConfig

/-- `getApiUrl` from `frontend/lib/apiConfig`, with `API_BASE_URL` passed
explicitly since it comes from the environment. -/
def getApiUrl (apiBaseUrl : String) (endpoint : String) : String :=
  let cleanEndpoint := if jsStartsWith endpoint "/" then jsSlice endpoint 1 else endpoint
  let baseUrl := if jsEndsWith apiBaseUrl "/api" then apiBaseUrl else apiBaseUrl ++ "/api"
  baseUrl ++ "/" ++ cleanEndpoint

/-- The base URL the spec calls `B`: `API_BASE_URL` itself when it already
ends with `/api`, and `API_BASE_URL ++ "/api"` otherwise. -/
def specBase (apiBaseUrl : String) : String :=
  if jsEndsWith apiBaseUrl "/api" then apiBaseUrl else apiBaseUrl ++ "/api"

/-- The endpoint the spec calls `e'`: `e` with a single leading `/` removed
if present. -/
def specCleanEndpoint (endpoint : String) : String :=
  if jsStartsWith endpoint "/" then jsSlice endpoint 1 else endpoint

end ApiConfig

/-- C10: for every endpoint `e`, `getApiUrl e = B ++ "/" ++ e'` where `e'`
is `e` with a single leading slash removed and `B` is the base URL
normalized to end in `/api`; consequently `getApiUrl ("/" ++ e) =
getApiUrl e` whenever `e` does not itself start with `/`, so leading
slashes never produce double slashes. -/
theorem getApiUrl_strips_leading_slash (base e : String) (h : jsStartsWith e "/" = false) :
    ApiConfig.getApiUrl base e = ApiConfig.specBase base ++ "/" ++ ApiConfig.specCleanEndpoint e ∧
    ApiConfig.getApiUrl base ("/" ++ e) = ApiConfig.getApiUrl base e := by
  constructor
  · rfl
  · have h1 : jsStartsWith ("/" ++ e) "/" = true := jsStartsWith_append_self e "/"
    have h2 : jsSlice ("/" ++ e) 1 = e := jsSlice_append_one e '/'
    simp [ApiConfig.getApiUrl, h1, h2, h]

/-- C10 witness: the theorem applied to a concrete base URL and endpoint. -/
theorem getApiUrl_strips_leading_slash_witness :
    ApiConfig.getApiUrl "http://localhost:8080/api" "export-cart" =
      ApiConfig.specBase "http://localhost:8080/api" ++ "/" ++
        ApiConfig.specCleanEndpoint "export-cart" ∧
    ApiConfig.getApiUrl "http://localhost:8080/api" ("/" ++ "export-cart") =
      ApiConfig.getApiUrl "http://localhost:8080/api" "export-cart" :=
  getApiUrl_strips_leading_slash "http://localhost:8080/api" "export-cart" (by decide)

/- ### `simulator-calculator` (src/unnamed/part_002) -/

namespace SimulatorCalculator

/-- A JavaScript number: `none` models `NaN` (`Number.parseFloat` of a
non-numeric string), `some q` an actual numeric value. -/
abbrev JsNum := Option ℚ

/-- JS multiplication, propagating `NaN`. -/
def jmul : JsNum → JsNum → JsNum
  | some a, some b => some (a * b)
  | _, _ => none

/-- JS addition, propagating `NaN`. -/
def jadd : JsNum → JsNum → JsNum
  | some a, some b => some (a + b)
  | _, _ => none

/-- JS division by a non-zero literal, propagating `NaN`. -/
def jdivC (x : JsNum) (c : ℚ) : JsNum :=
  match x with
  | some a => some (a / c)
  | none => none

/-- JS `x <= c` comparison: false when `x` is `NaN`. -/
def jleC (x : JsNum) (c : ℚ) : Bool :=
  match x with
  | some a => a ≤ c
  | none => false

/-- JS `x < c` comparison: false when `x` is `NaN`. -/
def jltC (x : JsNum) (c : ℚ) : Bool :=
  match x with
  | some a => a < c
  | none => false

/-- The simulator calculator's form state (string fields as typed by the
user; the numeric fields are parsed on submit). -/
structure FormData where
  product : String
  unit : String
  exportingFrom : String
  importingTo : String
  tariffType : String
  tariffRate : String
  quantity : String
  customCost : String
  calculationDate : String
deriving DecidableEq

/-- The computed calculation result rendered by `ResultsTable` (only the
fields the claims mention). -/
structure CalcResult where
  product : String
  exportingFrom : String
  importingTo : String
  quantity : JsNum
  unit : String
  costPerUnit : JsNum
  productCost : JsNum
  tariffRate : JsNum
  tariffCost : JsNum
  totalCost : JsNum
deriving DecidableEq

/-- `handleSubmit` of the simulator calculator, up to the local
calculation (the history save that follows does not affect the rendered
costs). `pf` models `Number.parseFloat`, with `none` for `NaN`. Returns
`Except.error msg` when validation sets an error and aborts, and
`Except.ok result` when a calculation result is produced. -/
def handleSubmit (pf : String → JsNum) (formData : FormData) : Except String CalcResult :=
  if formData.product = "" ∨ formData.unit = "" ∨ formData.exportingFrom = "" ∨
      formData.importingTo = "" ∨ formData.tariffRate = "" ∨ formData.quantity = "" ∨
      formData.customCost = "" then
    .error "Please fill in all required fields"
  else if jleC (pf formData.quantity) 0 then
    .error "Quantity must be greater than 0"
  else if jleC (pf formData.customCost) 0 then
    .error "Unit cost must be greater than 0"
  else if jltC (pf formData.tariffRate) 0 then
    .error "Tariff rate cannot be negative"
  else
    let quantity := pf formData.quantity
    let unitCost := pf formData.customCost
    let tariffRate := pf formData.tariffRate
    let productCost := jmul unitCost quantity
    let tariffCost :=
      if formData.tariffType = "percentage" then jdivC (jmul productCost tariffRate) 100
      else if formData.tariffType = "fixed" then jmul tariffRate quantity
      else some 0
    let totalCost := jadd productCost tariffCost
    .ok {
      product := formData.product
      exportingFrom := formData.exportingFrom
      importingTo := formData.importingTo
      quantity := quantity
      unit := formData.unit
      costPerUnit := unitCost
      productCost := productCost
      tariffRate := tariffRate
      tariffCost := tariffCost
      totalCost := totalCost
    }

/-- A concrete `parseFloat` table used by the witnesses below. -/
def pfExample : String → JsNum := fun s =>
  if s = "1" then some 1
  else if s = "2" then some 2
  else if s = "10" then some 10
  else none

/-- A concrete, fully valid simulator form. -/
def formExample : FormData :=
  { product := "Rice", unit := "kg", exportingFrom := "Thailand",
    importingTo := "Singapore", tariffType := "percentage",
    tariffRate := "10", quantity := "2", customCost := "2",
    calculationDate := "2024-01-01" }

/-- A form identical to `formExample` but with equal exporting and
importing countries. -/
def formEqualCountries : FormData :=
  { product := "Rice", unit := "kg", exportingFrom := "Singapore",
    importingTo := "Singapore", tariffType := "percentage",
    tariffRate := "10", quantity := "2", customCost := "2",
    calculationDate := "2024-01-01" }

end SimulatorCalculator

/-- C1: whenever a simulator submission parses to quantity `q > 0`, unit
cost `c > 0` and tariff rate `r ≥ 0` and produces a rendered result, that
result satisfies `productCost = c * q`, `tariffCost = c * q * r / 100` for
a percentage tariff and `r * q` for a fixed tariff, and
`totalCost = productCost + tariffCost`. -/
theorem simulator_result_math (pf : String → SimulatorCalculator.JsNum)
    (f : SimulatorCalculator.FormData) (res : SimulatorCalculator.CalcResult) (q c r : ℚ)
    (hok : SimulatorCalculator.handleSubmit pf f = .ok res)
    (hq : pf f.quantity = some q) (hc : pf f.customCost = some c)
    (hr : pf f.tariffRate = some r)
    (hqpos : 0 < q) (hcpos : 0 < c) (hrnn : 0 ≤ r) :
    res.productCost = some (c * q) ∧
    (f.tariffType = "percentage" → res.tariffCost = some (c * q * r / 100)) ∧
    (f.tariffType = "fixed" → res.tariffCost = some (r * q)) ∧
    (∃ t, res.tariffCost = some t ∧ res.totalCost = some (c * q + t)) := by
  unfold SimulatorCalculator.handleSubmit at hok
  split at hok
  · exact absurd hok (by simp)
  split at hok
  · exact absurd hok (by simp)
  split at hok
  · exact absurd hok (by simp)
  split at hok
  · exact absurd hok (by simp)
  rw [Except.ok.injEq] at hok
  subst hok
  simp only [SimulatorCalculator.jmul, SimulatorCalculator.jadd, SimulatorCalculator.jdivC,
    hq, hc, hr]
  refine ⟨by trivial, ?_, ?_, ?_⟩
  · intro ht
    simp [ht, SimulatorCalculator.jmul, SimulatorCalculator.jdivC]
  · intro ht
    have hne : f.tariffType ≠ "percentage" := by
      intro hp
      rw [hp] at ht
      exact absurd ht.symm (by decide)
    simp [ht, hne, SimulatorCalculator.jmul]
  · by_cases hp : f.tariffType = "percentage"
    · exact ⟨c * q * r / 100, by simp [hp, SimulatorCalculator.jmul, SimulatorCalculator.jdivC],
        by simp [hp, SimulatorCalculator.jmul, SimulatorCalculator.jdivC,
          SimulatorCalculator.jadd]⟩
    · by_cases hfx : f.tariffType = "fixed"
      · exact ⟨r * q, by simp [hp, hfx, SimulatorCalculator.jmul],
          by simp [hp, hfx, SimulatorCalculator.jmul, SimulatorCalculator.jadd]⟩
      · exact ⟨0, by simp [hp, hfx], by simp [hp, hfx, SimulatorCalculator.jmul,
          SimulatorCalculator.jadd]⟩

/-- C1 witness: the theorem applied to a concrete valid submission. -/
theorem simulator_result_math_witness :
    ∃ res : SimulatorCalculator.CalcResult,
      SimulatorCalculator.handleSubmit SimulatorCalculator.pfExample
        SimulatorCalculator.formExample = .ok res ∧
      res.productCost = some ((2 : ℚ) * 2) := by
  refine ⟨_, rfl, ?_⟩
  exact (simulator_result_math SimulatorCalculator.pfExample SimulatorCalculator.formExample _
    2 2 10 rfl rfl rfl rfl (by norm_num) (by norm_num) (by norm_num)).1

/-- C3 counterexample: the simulator calculator form performs no
equal-country validation. A submission whose exporting and importing
country are both "Singapore", with all other inputs valid, is accepted
and yields a calculation result instead of an error. -/
theorem simulator_equal_countries_accepted :
    SimulatorCalculator.formEqualCountries.exportingFrom =
      SimulatorCalculator.formEqualCountries.importingTo ∧
    ∃ res, SimulatorCalculator.handleSubmit SimulatorCalculator.pfExample
      SimulatorCalculator.formEqualCountries = .ok res :=
  ⟨rfl, _, rfl⟩

/-- C3 amended: submitting the simulator form with
`exportingFrom = importingTo` and all other inputs non-empty and
numerically valid is NOT rejected: `handleSubmit` contains no
equal-country check, so a calculation result is produced. -/
theorem simulator_no_equal_country_check (pf : String → SimulatorCalculator.JsNum)
    (f : SimulatorCalculator.FormData) (q c r : ℚ)
    (heq : f.exportingFrom = f.importingTo)
    (hp : f.product ≠ "") (hu : f.unit ≠ "") (he : f.exportingFrom ≠ "")
    (hi : f.importingTo ≠ "") (hrs : f.tariffRate ≠ "") (hqs : f.quantity ≠ "")
    (hcs : f.customCost ≠ "")
    (hq : pf f.quantity = some q) (hc : pf f.customCost = some c)
    (hr : pf f.tariffRate = some r)
    (hqpos : 0 < q) (hcpos : 0 < c) (hrnn : 0 ≤ r) :
    ∃ res, SimulatorCalculator.handleSubmit pf f = .ok res := by
  have hA : ¬(f.product = "" ∨ f.unit = "" ∨ f.exportingFrom = "" ∨
      f.importingTo = "" ∨ f.tariffRate = "" ∨ f.quantity = "" ∨ f.customCost = "") := by
    simp [hp, hu, he, hi, hrs, hqs, hcs]
  have hB : ¬(SimulatorCalculator.jleC (pf f.quantity) 0 = true) := by
    simp only [SimulatorCalculator.jleC, hq]
    simpa using hqpos
  have hC : ¬(SimulatorCalculator.jleC (pf f.customCost) 0 = true) := by
    simp only [SimulatorCalculator.jleC, hc]
    simpa using hcpos
  have hD : ¬(SimulatorCalculator.jltC (pf f.tariffRate) 0 = true) := by
    simp only [SimulatorCalculator.jltC, hr]
    simpa using hrnn
  unfold SimulatorCalculator.handleSubmit
  rw [if_neg hA, if_neg hB, if_neg hC, if_neg hD]
  exact ⟨_, rfl⟩

/-- C3 amended witness: the amended theorem applied to the concrete
equal-country form. -/
theorem simulator_no_equal_country_check_witness :
    ∃ res, SimulatorCalculator.handleSubmit SimulatorCalculator.pfExample
      SimulatorCalculator.formEqualCountries = .ok res :=
  simulator_no_equal_country_check SimulatorCalculator.pfExample
    SimulatorCalculator.formEqualCountries 2 2 10 rfl
    (by decide) (by decide) (by decide) (by decide) (by decide) (by decide) (by decide)
    rfl rfl rfl (by norm_num) (by norm_num) (by norm_num)

/- ### `tariff-definitions-table.tsx` -/

namespace TariffDefinitionsTable

/-- The new-tariff form state of the tariff-definitions table. -/
structure NewTariff where
  product : String
  exportingFrom : String
  importingTo : String
  type : String
  rate : String
  effectiveDate : String
  expirationDate : String
deriving DecidableEq

def MINIMUM_RATE : ℚ := 0

/-- `validateAllFieldsFilled`: false (with an alert) when some required
field is the empty string. -/
def validateAllFieldsFilled (newTariff : NewTariff) : Bool :=
  if newTariff.product = "" ∨ newTariff.exportingFrom = "" ∨ newTariff.importingTo = "" ∨
      newTariff.type = "" ∨ newTariff.rate = "" ∨ newTariff.effectiveDate = "" ∨
      newTariff.expirationDate = "" then
    false
  else
    true

/-- `validateRate`: false (with an alert) when `Number.parseFloat` of the
rate is `NaN` (modelled by `pf _ = none`) or negative. -/
def validateRate (pf : String → Option ℚ) (newTariff : NewTariff) : Bool :=
  match pf newTariff.rate with
  | none => false
  | some rateValue => if rateValue < MINIMUM_RATE then false else true

/-- `validateCountryPair`: false (with an alert) when the exporting and
importing countries coincide. -/
def validateCountryPair (newTariff : NewTariff) : Bool :=
  if newTariff.exportingFrom = newTariff.importingTo then false else true

/-- `validateTariffInput`: the conjunction of the three validators. -/
def validateTariffInput (pf : String → Option ℚ) (newTariff : NewTariff) : Bool :=
  validateAllFieldsFilled newTariff && validateRate pf newTariff &&
    validateCountryPair newTariff

end TariffDefinitionsTable

/-- C4: `validateTariffInput` returns false if and only if some required
field is empty, or the rate does not parse to a number `≥ 0`, or the
exporting country equals the importing country; equivalently it returns
true exactly when all fields are non-empty, the rate parses to a
non-negative number, and the countries differ. `pf` models
`Number.parseFloat` with `none` for `NaN`. -/
theorem validateTariffInput_false_iff (pf : String → Option ℚ)
    (nt : TariffDefinitionsTable.NewTariff) :
    TariffDefinitionsTable.validateTariffInput pf nt = false ↔
      (nt.product = "" ∨ nt.exportingFrom = "" ∨ nt.importingTo = "" ∨
        nt.type = "" ∨ nt.rate = "" ∨ nt.effectiveDate = "" ∨ nt.expirationDate = "") ∨
      (¬ ∃ v, pf nt.rate = some v ∧ 0 ≤ v) ∨
      nt.exportingFrom = nt.importingTo := by
  unfold TariffDefinitionsTable.validateTariffInput
    TariffDefinitionsTable.validateAllFieldsFilled TariffDefinitionsTable.validateRate
    TariffDefinitionsTable.validateCountryPair
  constructor
  · intro h
    by_cases hA : nt.product = "" ∨ nt.exportingFrom = "" ∨ nt.importingTo = "" ∨
        nt.type = "" ∨ nt.rate = "" ∨ nt.effectiveDate = "" ∨ nt.expirationDate = ""
    · exact Or.inl hA
    · rw [if_neg hA] at h
      match hpf : pf nt.rate with
      | none =>
        refine Or.inr (Or.inl ?_)
        rintro ⟨v, hv, _⟩
        exact Option.noConfusion hv
      | some v =>
        rw [hpf] at h
        by_cases hneg : v < TariffDefinitionsTable.MINIMUM_RATE
        · refine Or.inr (Or.inl ?_)
          rintro ⟨w, hw, hwnn⟩
          have hvw : v = w := Option.some.inj hw
          exact absurd hneg (by
            rw [hvw]
            simpa [TariffDefinitionsTable.MINIMUM_RATE] using not_lt.mpr hwnn)
        · by_cases hcp : nt.exportingFrom = nt.importingTo
          · exact Or.inr (Or.inr hcp)
          · exfalso
            simp [hneg, hcp] at h
  · intro h
    rcases h with hA | hB | hC
    · rw [if_pos hA]
      simp
    · match hpf : pf nt.rate with
      | none => simp
      | some v =>
        have hneg : v < TariffDefinitionsTable.MINIMUM_RATE := by
          by_contra hge
          exact hB ⟨v, hpf, by simpa [TariffDefinitionsTable.MINIMUM_RATE, not_lt] using hge⟩
        simp [hneg]
    · rw [if_pos hC]
      simp

/- ### `results-table.tsx` -/

namespace ResultsTable

def HTTP_STATUS_BAD_REQUEST : Nat := 400
def HTTP_STATUS_NOT_FOUND : Nat := 404

/-- `handleBadRequestError`: message for a 400 response, choosing the
already-in-cart wording when the server's error text mentions it. -/
def handleBadRequestError (errorMessage : String) : String :=
  if jsIncludes errorMessage "already in cart" then
    "This calculation is already in your export cart"
  else
    "Failed to add to cart: " ++ errorMessage

/-- `handleNotFoundError`: the error banner set for a 404 response. -/
def handleNotFoundError : String :=
  "Calculation not found in history. Please calculate again."

/-- `handleApiError`: the inline error banner text keyed off the HTTP
status code, given the error text extracted by `parseErrorResponse`. -/
def handleApiError (status : Nat) (errorMessage : String) : String :=
  if status = HTTP_STATUS_BAD_REQUEST then handleBadRequestError errorMessage
  else if status = HTTP_STATUS_NOT_FOUND then handleNotFoundError
  else "Failed to add to cart: " ++ errorMessage

/-- The banner text described by the claim, written from the claim's
words: 400 is keyed on the "already in cart" substring, 404 gets the
fixed not-found message, any other status gets a generic failure message
containing the server's error text. -/
def claimedBanner (status : Nat) (errorText : String) : String :=
  if status = 400 then
    if jsIncludes errorText "already in cart" then
      "This calculation is already in your export cart"
    else
      "Failed to add to cart: " ++ errorText
  else if status = 404 then
    "Calculation not found in history. Please calculate again."
  else
    "Failed to add to cart: " ++ errorText

end ResultsTable

/-- C6: for every HTTP status and server error text, the inline error
banner produced by `handleApiError` is exactly the banner the claim
describes: on 400 the already-in-cart message when the error text
contains "already in cart" and otherwise a generic failure message
containing the error text; on 404 the fixed not-found message; on any
other status a generic failure message containing the error text. -/
theorem handleApiError_matches_claim (status : Nat) (errorMessage : String) :
    ResultsTable.handleApiError status errorMessage =
      ResultsTable.claimedBanner status errorMessage := by
  unfold ResultsTable.handleApiError ResultsTable.claimedBanner
    ResultsTable.handleBadRequestError ResultsTable.handleNotFoundError
    ResultsTable.HTTP_STATUS_BAD_REQUEST ResultsTable.HTTP_STATUS_NOT_FOUND
  rfl

/- ### `tariff-trends-visualization` (src/unnamed/part_001) -/

namespace TariffTrends

/-- The filter selection of the tariff trends visualization. -/
structure FilterSelection where
  exportCountries : List String
  importCountries : List String
  products : List String
  dateRangeStart : String
  dateRangeEnd : String
deriving DecidableEq

def MAX_LINES : Nat := 10

/-- What `handleFilterChange` does after storing the new filters:
either it sets an error message and clears the chart data without
issuing a request, or it issues the tariff-trends fetch. -/
inductive FilterAction where
  | rejectWithError (errorMessage : String)
  | fetchData
deriving DecidableEq

/-- `handleFilterChange` of the tariff trends visualization, up to the
fetch itself: the validation that decides whether a request is issued. -/
def handleFilterChange (newFilters : FilterSelection) : FilterAction :=
  if newFilters.importCountries.length = 0 ∨ newFilters.exportCountries.length = 0 ∨
      newFilters.products.length = 0 then
    .rejectWithError "Please fill in all the boxes"
  else
    let totalLines := newFilters.importCountries.length *
      newFilters.exportCountries.length * newFilters.products.length
    if totalLines > MAX_LINES then
      .rejectWithError ("Too many combinations (" ++ toString totalLines ++
        " lines). Please reduce selections to create " ++ toString MAX_LINES ++
        " or fewer lines for optimal readability.")
    else
      .fetchData

end TariffTrends

/-- C9: the tariff trends visualization issues a fetch exactly when all
three selections are non-empty and the number of combinations is at most
`MAX_LINES = 10`; in every other case it sets an error message (and
clears the chart) without issuing a request. -/
theorem handleFilterChange_gates_fetch (f : TariffTrends.FilterSelection) :
    TariffTrends.MAX_LINES = 10 ∧
    (TariffTrends.handleFilterChange f = .fetchData ↔
      (f.importCountries ≠ [] ∧ f.exportCountries ≠ [] ∧ f.products ≠ [] ∧
        f.importCountries.length * f.exportCountries.length * f.products.length ≤ 10)) ∧
    ((f.importCountries = [] ∨ f.exportCountries = [] ∨ f.products = [] ∨
        f.importCountries.length * f.exportCountries.length * f.products.length > 10) →
      ∃ msg, TariffTrends.handleFilterChange f = .rejectWithError msg) := by
  refine ⟨rfl, ?_, ?_⟩
  · unfold TariffTrends.handleFilterChange
    by_cases hA : f.importCountries.length = 0 ∨ f.exportCountries.length = 0 ∨
        f.products.length = 0
    · rw [if_pos hA]
      constructor
      · intro h
        exact absurd h (by simp)
      · intro ⟨h1, h2, h3, _⟩
        rcases hA with h | h | h
        · exact absurd (List.length_eq_zero.mp h) h1
        · exact absurd (List.length_eq_zero.mp h) h2
        · exact absurd (List.length_eq_zero.mp h) h3
    · rw [if_neg hA]
      push_neg at hA
      obtain ⟨h1, h2, h3⟩ := hA
      by_cases hB : f.importCountries.length * f.exportCountries.length *
          f.products.length > TariffTrends.MAX_LINES
      · rw [if_pos hB]
        constructor
        · intro h
          exact absurd h (by simp)
        · intro ⟨_, _, _, hle⟩
          exact absurd hle (by simpa [TariffTrends.MAX_LINES, not_le] using hB)
      · rw [if_neg hB]
        refine ⟨fun _ => ?_, fun _ => rfl⟩
        refine ⟨?_, ?_, ?_, ?_⟩
        · exact fun hh => h1 (by simp [hh])
        · exact fun hh => h2 (by simp [hh])
        · exact fun hh => h3 (by simp [hh])
        · simpa [TariffTrends.MAX_LINES, not_lt] using hB
  · intro h
    unfold TariffTrends.handleFilterChange
    by_cases hA : f.importCountries.length = 0 ∨ f.exportCountries.length = 0 ∨
        f.products.length = 0
    · rw [if_pos hA]
      exact ⟨_, rfl⟩
    · rw [if_neg hA]
      have hB : f.importCountries.length * f.exportCountries.length *
          f.products.length > TariffTrends.MAX_LINES := by
        rcases h with h | h | h | h
        · exact absurd (Or.inl (by simp [h])) hA
        · exact absurd (Or.inr (Or.inl (by simp [h]))) hA
        · exact absurd (Or.inr (Or.inr (by simp [h]))) hA
        · simpa [TariffTrends.MAX_LINES] using h
      rw [if_pos hB]
      exact ⟨_, rfl⟩

/-- C9 witness: a selection of 3 import countries, 2 export countries and
2 products gives 12 > 10 combinations and is rejected without a fetch. -/
theorem handleFilterChange_gates_fetch_witness :
    ∃ msg, TariffTrends.handleFilterChange
      ⟨["A", "B"], ["C", "D", "E"], ["P", "Q"], "2020-01-01", "2024-12-31"⟩ =
        .rejectWithError msg :=
  (handleFilterChange_gates_fetch
    ⟨["A", "B"], ["C", "D", "E"], ["P", "Q"], "2020-01-01", "2024-12-31"⟩).2.2
    (by right; right; right; decide)

/- ### currency loading (src/unnamed/part_003 and tariff-comparison-panel.tsx) -/

namespace Currencies

/-- A currency entry from the `tariffs/currencies` payload. -/
structure Currency where
  code : String
  name : String
  rate : ℚ
  lastUpdated : String
deriving DecidableEq

instance : Inhabited Currency := ⟨⟨"", "", 0, ""⟩⟩

/-- The static fallback list; `today` stands for
`new Date().toISOString().split("T")[0]`. -/
def FALLBACK_CURRENCIES (today : String) : List Currency :=
  [ { code := "USD", name := "United States Dollar", rate := 1, lastUpdated := today },
    { code := "SGD", name := "Singapore Dollar", rate := 27 / 20, lastUpdated := today },
    { code := "EUR", name := "Euro", rate := 93 / 100, lastUpdated := today },
    { code := "CNY", name := "Chinese Yuan", rate := 178 / 25, lastUpdated := today } ]

/-- The outcome of the `tariffs/currencies` fetch, as the code observes
it: a thrown error (network failure or JSON parse failure), or a response
with its `ok` flag and, when the payload's `currency` field is an array,
that array. -/
inductive CurrenciesFetch where
  | netError
  | response (ok : Bool) (currencyField : Option (List Currency))
deriving DecidableEq

/-- The catch-branch of both `loadCurrencies` implementations: install
the fallback list and keep the previous currency if set (JS truthiness:
non-empty), otherwise take the first fallback code. -/
def fallbackUpdate (today prevCurrency : String) : List Currency × String :=
  (FALLBACK_CURRENCIES today,
    if prevCurrency ≠ "" then prevCurrency else (FALLBACK_CURRENCIES today).headI.code)

/-- `loadCurrencies` of the tariff calculator form (src/unnamed/part_003):
returns the resulting `availableCurrencies` list and selected currency
code. -/
def loadCurrencies (today : String) (outcome : CurrenciesFetch) (prevCurrency : String) :
    List Currency × String :=
  match outcome with
  | .netError => fallbackUpdate today prevCurrency
  | .response ok currencyField =>
    if !ok then fallbackUpdate today prevCurrency
    else
      match currencyField.getD [] with
      | [] => fallbackUpdate today prevCurrency
      | c :: rest =>
        (c :: rest,
          if prevCurrency ≠ "" ∧ (c :: rest).any (fun x => x.code = prevCurrency) then
            prevCurrency
          else c.code)

/-- `loadCurrencies` of the tariff comparison panel: identical except the
success branch keeps `prevCurrency` purely on membership, without the
truthiness guard. -/
def loadCurrenciesPanel (today : String) (outcome : CurrenciesFetch) (prevCurrency : String) :
    List Currency × String :=
  match outcome with
  | .netError => fallbackUpdate today prevCurrency
  | .response ok currencyField =>
    if !ok then fallbackUpdate today prevCurrency
    else
      match currencyField.getD [] with
      | [] => fallbackUpdate today prevCurrency
      | c :: rest =>
        (c :: rest,
          if (c :: rest).any (fun x => x.code = prevCurrency) then prevCurrency else c.code)

/-- The failure classification of the claim: non-OK response, payload
whose `currency` field is not an array, or empty currency list (plus a
thrown fetch/parse error). -/
def fetchFailed : CurrenciesFetch → Bool
  | .netError => true
  | .response ok currencyField => !ok || (currencyField.getD []).isEmpty

end Currencies

/-- C5: on a failed currency fetch both `loadCurrencies` implementations
fall back to the static USD/SGD/EUR/CNY list and select the previously
selected code if set, otherwise the first fallback code (USD); on success
the fetched list is installed, a selection that is kept is always a
member of the fetched code list, and a previous selection that is not in
the fetched list is replaced by the first fetched code. -/
theorem loadCurrencies_fallback_and_selection (today prev : String)
    (outcome : Currencies.CurrenciesFetch) :
    ((Currencies.FALLBACK_CURRENCIES today).map Currencies.Currency.code =
      ["USD", "SGD", "EUR", "CNY"]) ∧
    (Currencies.fetchFailed outcome = true →
      Currencies.loadCurrencies today outcome prev =
        (Currencies.FALLBACK_CURRENCIES today, if prev ≠ "" then prev else "USD") ∧
      Currencies.loadCurrenciesPanel today outcome prev =
        (Currencies.FALLBACK_CURRENCIES today, if prev ≠ "" then prev else "USD")) ∧
    (∀ c rest, Currencies.fetchFailed outcome = false →
      outcome = .response true (some (c :: rest)) →
      ((Currencies.loadCurrencies today outcome prev).1 = c :: rest ∧
        ((Currencies.loadCurrencies today outcome prev).2 = prev →
          prev ∈ (c :: rest).map Currencies.Currency.code) ∧
        (prev ∉ (c :: rest).map Currencies.Currency.code →
          (Currencies.loadCurrencies today outcome prev).2 = c.code)) ∧
      ((Currencies.loadCurrenciesPanel today outcome prev).1 = c :: rest ∧
        ((Currencies.loadCurrenciesPanel today outcome prev).2 = prev →
          prev ∈ (c :: rest).map Currencies.Currency.code) ∧
        (prev ∉ (c :: rest).map Currencies.Currency.code →
          (Currencies.loadCurrenciesPanel today outcome prev).2 = c.code))) := by
  refine ⟨rfl, ?_, ?_⟩
  · intro hfail
    have hfb : Currencies.fallbackUpdate today prev =
        (Currencies.FALLBACK_CURRENCIES today, if prev ≠ "" then prev else "USD") := by
      unfold Currencies.fallbackUpdate
      rfl
    match outcome with
    | .netError => exact ⟨hfb, hfb⟩
    | .response ok currencyField =>
      unfold Currencies.fetchFailed at hfail
      match ok with
      | false => exact ⟨hfb, hfb⟩
      | true =>
        simp only [Bool.not_true, Bool.false_or] at hfail
        match hcf : currencyField.getD [] with
        | [] =>
          refine ⟨?_, ?_⟩ <;>
            simp [Currencies.loadCurrencies, Currencies.loadCurrenciesPanel, hcf, hfb]
        | c :: rest =>
          rw [hcf] at hfail
          exact absurd hfail (by simp)
  · intro c rest _ hresp
    subst hresp
    have hmem : ∀ sel : String, (c :: rest).any (fun x => x.code = sel) = true →
        sel ∈ (c :: rest).map Currencies.Currency.code := by
      intro sel hany
      rw [List.any_eq_true] at hany
      obtain ⟨x, hx, hcode⟩ := hany
      rw [List.mem_map]
      exact ⟨x, hx, by simpa using hcode⟩
    have hnotmem : ∀ sel : String, sel ∉ (c :: rest).map Currencies.Currency.code →
        (c :: rest).any (fun x => x.code = sel) = false := by
      intro sel hnm
      rw [Bool.eq_false_iff]
      intro hany
      exact hnm (hmem sel hany)
    constructor
    · unfold Currencies.loadCurrencies
      simp only [Bool.not_true, if_false, Option.getD_some, if_neg (by simp : ¬False)]
      by_cases hkeep : prev ≠ "" ∧ ((c :: rest).any fun x => decide (x.code = prev)) = true
      · rw [if_pos hkeep]
        refine ⟨rfl, fun _ => hmem prev hkeep.2, fun hnm => ?_⟩
        exact absurd hkeep.2 (by simp [hnotmem prev hnm])
      · rw [if_neg hkeep]
        refine ⟨rfl, ?_, fun _ => rfl⟩
        intro hsel
        have hcp : c.code = prev := hsel
        exact hcp ▸ List.mem_map.mpr ⟨c, List.mem_cons_self c rest, rfl⟩
    · unfold Currencies.loadCurrenciesPanel
      simp only [Bool.not_true, if_false, Option.getD_some, if_neg (by simp : ¬False)]
      by_cases hkeep : ((c :: rest).any fun x => decide (x.code = prev)) = true
      · rw [if_pos hkeep]
        refine ⟨rfl, fun _ => hmem prev hkeep, fun hnm => ?_⟩
        exact absurd hkeep (by simp [hnotmem prev hnm])
      · rw [if_neg hkeep]
        refine ⟨rfl, ?_, fun _ => rfl⟩
        intro hsel
        have hcp : c.code = prev := hsel
        exact hcp ▸ List.mem_map.mpr ⟨c, List.mem_cons_self c rest, rfl⟩

/- ### `Home` page (src/unnamed/part_000) -/

namespace Home

/-- A JSON value, as produced by `response.json()`. -/
inductive Json where
  | null
  | bool (b : Bool)
  | num (q : ℚ)
  | str (s : String)
  | arr (items : List Json)
  | obj (fields : List (String × Json))

/-- The parts of a `fetch` response that `fetchCartCount` inspects:
the status code, the `content-type` header (when present), and the JSON
body (`none` when `response.json()` throws a parse error). -/
structure CartResponse where
  status : Nat
  contentType : Option String
  body : Option Json

def EMPTY_CART_STATUS : Nat := 204

/-- `response.ok` of the Fetch API: status in the range 200-299. -/
def respOk (status : Nat) : Bool :=
  200 ≤ status && status < 300

/-- `parseCartResponse`: the cart count extracted from a `GET
/export-cart` response. -/
def parseCartResponse (response : CartResponse) : Nat :=
  if response.status = EMPTY_CART_STATUS ∨ !respOk response.status then 0
  else
    match response.contentType with
    | none => 0
    | some contentType =>
      if jsIncludes contentType "application/json" then
        match response.body with
        | some (Json.arr cartData) => cartData.length
        | _ => 0
      else 0

/-- `fetchCartCount`: the value stored into the cart-count state.
`none` models a network error (the fetch threw). The body mirrors the
inline logic of `fetchCartCount`, which is the same computation as
`parseCartResponse`. -/
def fetchCartCount : Option CartResponse → Nat
  | none => 0
  | some response =>
    if response.status = 204 ∨ !respOk response.status then 0
    else
      match response.contentType with
      | none => 0
      | some contentType =>
        if jsIncludes contentType "application/json" then
          match response.body with
          | some (Json.arr cartData) => cartData.length
          | _ => 0
        else 0

end Home

/-- C7: `fetchCartCount` stores the length of the response array exactly
when the status is OK and not 204, the content-type contains
"application/json", and the body parses to an array; in every other case
(including network errors) it stores 0. It agrees with
`parseCartResponse` on every response. -/
theorem fetchCartCount_array_length (input : Option Home.CartResponse) :
    (∀ response cartData contentType,
      input = some response →
      response.status ≠ 204 →
      Home.respOk response.status = true →
      response.contentType = some contentType →
      jsIncludes contentType "application/json" = true →
      response.body = some (Home.Json.arr cartData) →
      Home.fetchCartCount input = cartData.length) ∧
    ((¬ ∃ response cartData contentType,
        input = some response ∧
        response.status ≠ 204 ∧
        Home.respOk response.status = true ∧
        response.contentType = some contentType ∧
        jsIncludes contentType "application/json" = true ∧
        response.body = some (Home.Json.arr cartData)) →
      Home.fetchCartCount input = 0) ∧
    (∀ response, Home.fetchCartCount (some response) = Home.parseCartResponse response) := by
  refine ⟨?_, ?_, ?_⟩
  · rintro response cartData contentType rfl hstatus hok hct hjson hbody
    simp only [Home.fetchCartCount, hct, hbody]
    rw [if_neg (by simp [hstatus, hok]), if_pos hjson]
  · intro hno
    match input with
    | none => rfl
    | some response =>
      simp only [Home.fetchCartCount]
      by_cases hstop : response.status = 204 ∨ (!Home.respOk response.status) = true
      · rw [if_pos hstop]
      · rw [if_neg hstop]
        push_neg at hstop
        obtain ⟨hstatus, hok0⟩ := hstop
        have hok : Home.respOk response.status = true := by simpa using hok0
        match hct : response.contentType with
        | none => rfl
        | some contentType =>
          show (if jsIncludes contentType "application/json" = true then
              (match response.body with
                | some (Home.Json.arr cartData) => cartData.length
                | _ => 0)
            else 0) = 0
          by_cases hjson : jsIncludes contentType "application/json" = true
          · rw [if_pos hjson]
            match hbody : response.body with
            | none => rfl
            | some Home.Json.null => rfl
            | some (Home.Json.bool b) => rfl
            | some (Home.Json.num q) => rfl
            | some (Home.Json.str s) => rfl
            | some (Home.Json.obj fields) => rfl
            | some (Home.Json.arr cartData) =>
              exact absurd ⟨response, cartData, contentType, rfl, hstatus, hok, hct, hjson, hbody⟩
                hno
          · rw [if_neg hjson]
  · intro response
    rfl

/-- C7 witness: a 200 JSON response whose body is a two-element array
yields a cart count of 2, through the main theorem. -/
theorem fetchCartCount_array_length_witness :
    Home.fetchCartCount (some ⟨200, some "application/json; charset=utf-8",
      some (Home.Json.arr [Home.Json.null, Home.Json.null])⟩) =
      [Home.Json.null, Home.Json.null].length :=
  (fetchCartCount_array_length (some ⟨200, some "application/json; charset=utf-8",
      some (Home.Json.arr [Home.Json.null, Home.Json.null])⟩)).1
    ⟨200, some "application/json; charset=utf-8",
      some (Home.Json.arr [Home.Json.null, Home.Json.null])⟩
    [Home.Json.null, Home.Json.null] "application/json; charset=utf-8"
    rfl (by decide) (by decide) rfl (by decide) rfl

/- ### backend requests across all components (claim about auth headers) -/

namespace Requests

/-- A request the client sends to the backend: either a `fetch` call (with
its headers and credentials option) or a plain `window.location.href`
navigation (which carries neither custom headers nor a fetch credentials
option). -/
structure ClientRequest where
  endpoint : String
  viaFetch : Bool
  headers : List (String × String)
  credentials : Option String
deriving DecidableEq

/-- `createAuthHeaders` as defined identically in every component:
JS truthiness on the token selects `Bearer <token>` or the empty
string. -/
def createAuthHeaders (token : String) : List (String × String) :=
  [("Authorization", if token = "" then "" else "Bearer " ++ token),
   ("Content-Type", "application/json")]

/-- A fetch call site that uses `createAuthHeaders` and
`credentials: 'include'`. -/
def fetchRequest (endpoint token : String) : ClientRequest :=
  { endpoint := endpoint, viaFetch := true, headers := createAuthHeaders token,
    credentials := some "include" }

/-- Every request the repository's components send to the backend REST
API, one entry per call site, in source order per file. `token` is the
session access token and `id` stands for the interpolated dynamic path
segment of the call sites that have one. -/
def clientRequests (token id : String) : List ClientRequest :=
  [ -- Home (src/unnamed/part_000): fetchCartCount
    fetchRequest "export-cart" token,
    -- admin-dashboard.tsx: loadStats
    fetchRequest "admin/dashboard/stats" token,
    -- admin-dashboard.tsx: CSV export button (window.location.href)
    { endpoint := "tariff-definitions/export", viaFetch := false, headers := [],
      credentials := none },
    -- export-cart-with-history.tsx: loadCartItems, loadHistory, remove,
    -- clear, add, export (the export call sends only the auth header)
    fetchRequest "export-cart" token,
    fetchRequest "tariff/history" token,
    fetchRequest ("export-cart/remove/" ++ id) token,
    fetchRequest "export-cart/clear" token,
    fetchRequest ("export-cart/add/" ++ id) token,
    { endpoint := "export-cart/export", viaFetch := true,
      headers := [("Authorization", if token = "" then "" else "Bearer " ++ token)],
      credentials := some "include" },
    -- tariff-comparison-panel.tsx: products, countries, currencies, compare
    fetchRequest "products" token,
    fetchRequest "countries" token,
    fetchRequest "tariffs/currencies" token,
    fetchRequest "tariffs/compare" token,
    -- tariff-definitions-table.tsx: fetchDataWithAuth, update (PUT),
    -- add (POST, headers written inline in the opposite order),
    -- reloadUserTariffs, delete, reloadModifiedTariffs, CSV export
    fetchRequest ("tariff-definitions/" ++ id) token,
    fetchRequest ("tariff-definitions/user/" ++ id) token,
    { endpoint := "tariff-definitions/user", viaFetch := true,
      headers := [("Content-Type", "application/json"),
        ("Authorization", if token = "" then "" else "Bearer " ++ token)],
      credentials := some "include" },
    fetchRequest "tariff-definitions/user" token,
    fetchRequest ("tariff-definitions/user/" ++ id) token,
    fetchRequest "tariff-definitions/modified" token,
    { endpoint := "tariff-definitions/export", viaFetch := false, headers := [],
      credentials := none },
    -- results-table.tsx: addToCartApi
    fetchRequest ("export-cart/add/" ++ id) token,
    -- tariff-calculator-form (src/unnamed/part_003): fetchDataWithAuth,
    -- currencies, tariff, history, history/save
    fetchRequest ("tariff-definitions/" ++ id) token,
    fetchRequest "tariffs/currencies" token,
    fetchRequest "tariff" token,
    fetchRequest "tariff/history" token,
    fetchRequest "tariff/history/save" token,
    -- tariff-trends-visualization (src/unnamed/part_001)
    fetchRequest "tariff-trends" token,
    -- tariff-filters (src/unnamed/part_004): countries, products
    fetchRequest "countries" token,
    fetchRequest "products" token,
    -- simulator-calculator (src/unnamed/part_002): history/save, history
    fetchRequest "tariff/history/save" token,
    fetchRequest "tariff/history" token ]

/-- Whether a request carries an `Authorization: Bearer <token>`
header. -/
def hasBearerAuth (r : ClientRequest) (token : String) : Bool :=
  r.headers.any (fun h => h.1 = "Authorization" && h.2 = "Bearer " ++ token)

/-- The CSV-export navigation request
(`window.location.href = .../tariff-definitions/export`). -/
def exportCsvNavigation : ClientRequest :=
  { endpoint := "tariff-definitions/export", viaFetch := false, headers := [],
    credentials := none }

end Requests

/-- C2 counterexample: not every request carries the bearer header. The
CSV-export request issued by `handleExportCSV` via
`window.location.href` is one of the client's backend requests, yet it
carries no `Authorization` header and no `credentials: 'include'`
option, even with a non-empty session token. -/
theorem request_without_bearer_auth :
    Requests.exportCsvNavigation ∈ Requests.clientRequests "token123" "u-1" ∧
    Requests.hasBearerAuth Requests.exportCsvNavigation "token123" = false ∧
    Requests.exportCsvNavigation.credentials ≠ some "include" := by
  refine ⟨?_, rfl, by decide⟩
  simp [Requests.clientRequests, Requests.exportCsvNavigation]

/-- C2 amended: every request this client sends through `fetch` carries
`Authorization: Bearer <token>` (for a non-empty session token) and
`credentials: 'include'`; the two CSV-export requests, which are plain
`window.location.href` navigations rather than fetches, carry
neither. -/
theorem fetch_requests_carry_bearer_auth (token id : String) (htok : token ≠ "")
    (r : Requests.ClientRequest) (hr : r ∈ Requests.clientRequests token id)
    (hfetch : r.viaFetch = true) :
    Requests.hasBearerAuth r token = true ∧ r.credentials = some "include" := by
  have hbearer : ∀ e : String, Requests.hasBearerAuth (Requests.fetchRequest e token) token =
      true := by
    intro e
    simp [Requests.hasBearerAuth, Requests.fetchRequest, Requests.createAuthHeaders, htok]
  simp only [Requests.clientRequests, List.mem_cons, List.not_mem_nil, or_false] at hr
  rcases hr with rfl | rfl | rfl | rfl | rfl | rfl | rfl | rfl | rfl | rfl | rfl | rfl | rfl |
    rfl | rfl | rfl | rfl | rfl | rfl | rfl | rfl | rfl | rfl | rfl | rfl | rfl | rfl | rfl |
    rfl | rfl | rfl
  all_goals first
    | exact ⟨hbearer _, rfl⟩
    | exact absurd hfetch (by decide)
    | exact ⟨by simp [Requests.hasBearerAuth, htok], rfl⟩

/-- C2 amended witness: the amended theorem applied to the concrete
cart-count fetch with a concrete token. -/
theorem fetch_requests_carry_bearer_auth_witness :
    Requests.hasBearerAuth (Requests.fetchRequest "export-cart" "tok") "tok" = true ∧
    (Requests.fetchRequest "export-cart" "tok").credentials = some "include" :=
  fetch_requests_carry_bearer_auth "tok" "u-1" (by decide)
    (Requests.fetchRequest "export-cart" "tok") (by simp [Requests.clientRequests]) rfl

/- ### `mergeTariffs` of tariff-definitions-table.tsx -/

namespace TariffDefinitionsTable

/-- A tariff definition row, as held in the table's state. -/
structure TariffDefinition where
  id : String
  product : String
  exportingFrom : String
  importingTo : String
  type : String
  rate : ℚ
  effectiveDate : String
  expirationDate : String
deriving DecidableEq

/-- The (product, exportingFrom, importingTo) triple a modified tariff is
matched on. -/
def routeKey (t : TariffDefinition) : String × String × String :=
  (t.product, t.exportingFrom, t.importingTo)

/-- The `findIndex` predicate of `mergeTariffs`: same product, exporting
country and importing country. -/
def sameRoute (t modifiedTariff : TariffDefinition) : Bool :=
  t.product = modifiedTariff.product && t.exportingFrom = modifiedTariff.exportingFrom &&
    t.importingTo = modifiedTariff.importingTo

/-- One iteration of the `forEach` in `mergeTariffs`: replace the first
entry with the same route, or push at the end. -/
def mergeStep (mergedGlobalTariffs : List TariffDefinition)
    (modifiedTariff : TariffDefinition) : List TariffDefinition :=
  match jsFindIndex (fun t => sameRoute t modifiedTariff) mergedGlobalTariffs with
  | some existingIndex => mergedGlobalTariffs.set existingIndex modifiedTariff
  | none => mergedGlobalTariffs ++ [modifiedTariff]

/-- `mergeTariffs`: start from a copy of the global tariffs and apply
every modified global tariff in order. (The JS code copies
`globalTariffs` first, so the inputs are never mutated; in this pure
embedding that is automatic.) -/
def mergeTariffs (globalTariffs modifiedGlobalTariffs : List TariffDefinition) :
    List TariffDefinition :=
  modifiedGlobalTariffs.foldl mergeStep globalTariffs

lemma sameRoute_iff (t m : TariffDefinition) :
    sameRoute t m = true ↔ routeKey t = routeKey m := by
  simp [sameRoute, routeKey, Prod.ext_iff, and_assoc]

lemma jsFindIndex_eq_none_iff (p : α → Bool) :
    ∀ l : List α, jsFindIndex p l = none ↔ ∀ a ∈ l, p a = false
  | [] => by simp [jsFindIndex]
  | a :: l => by
    cases hpa : p a
    · simp [jsFindIndex, hpa, jsFindIndex_eq_none_iff p l]
    · simp [jsFindIndex, hpa]

lemma jsFindIndex_eq_some_iff (p : α → Bool) :
    ∀ (l : List α) (i : Nat), jsFindIndex p l = some i ↔
      (∃ a, l[i]? = some a ∧ p a = true) ∧
        ∀ j, j < i → ∃ b, l[j]? = some b ∧ p b = false
  | [], i => by simp [jsFindIndex]
  | a :: l, i => by
    cases hpa : p a
    · cases i with
      | zero =>
        simp only [jsFindIndex, hpa, Bool.false_eq_true, if_false, List.getElem?_cons_zero]
        constructor
        · intro h
          rw [Option.map_eq_some'] at h
          obtain ⟨m, _, hm⟩ := h
          omega
        · rintro ⟨⟨b, hb, hpb⟩, _⟩
          rw [Option.some.injEq] at hb
          rw [← hb] at hpb
          rw [hpa] at hpb
          exact absurd hpb (by simp)
      | succ k =>
        simp only [jsFindIndex, hpa, Bool.false_eq_true, if_false, Option.map_eq_some']
        constructor
        · rintro ⟨m, hm, hmk⟩
          rw [show m = k by omega] at hm
          obtain ⟨⟨b, hb, hpb⟩, hfirst⟩ := (jsFindIndex_eq_some_iff p l k).mp hm
          refine ⟨⟨b, by simpa using hb, hpb⟩, ?_⟩
          intro j hj
          cases j with
          | zero => exact ⟨a, by simp, hpa⟩
          | succ j' =>
            obtain ⟨b', hb', hpb'⟩ := hfirst j' (by omega)
            exact ⟨b', by simpa using hb', hpb'⟩
        · rintro ⟨⟨b, hb, hpb⟩, hfirst⟩
          refine ⟨k, ?_, rfl⟩
          apply (jsFindIndex_eq_some_iff p l k).mpr
          refine ⟨⟨b, by simpa using hb, hpb⟩, ?_⟩
          intro j hj
          obtain ⟨b', hb', hpb'⟩ := hfirst (j + 1) (by omega)
          exact ⟨b', by simpa using hb', hpb'⟩
    · cases i with
      | zero =>
        simp only [jsFindIndex, hpa, if_true]
        constructor
        · intro _
          exact ⟨⟨a, by simp, hpa⟩, fun j hj => absurd hj (by omega)⟩
        · intro _
          trivial
      | succ k =>
        simp only [jsFindIndex, hpa, if_true]
        constructor
        · intro h
          exact absurd h (by simp)
        · rintro ⟨_, hfirst⟩
          obtain ⟨b, hb, hpb⟩ := hfirst 0 (by omega)
          have hba : a = b := by simpa using hb
          rw [← hba, hpa] at hpb
          exact absurd hpb (by simp)

lemma drop_set_of_lt (l : List α) (i n : Nat) (a : α) (h : i < n) :
    (l.set i a).drop n = l.drop n := by
  apply List.ext_getElem?
  intro m
  rw [List.getElem?_drop, List.getElem?_drop]
  rw [List.getElem?_set_ne (by omega)]

/-- Two concrete modified tariffs sharing one route triple. -/
def dupA : TariffDefinition :=
  { id := "admin-modified-1", product := "Rice", exportingFrom := "Thailand",
    importingTo := "Singapore", type := "AHS", rate := 5,
    effectiveDate := "2020-01-01", expirationDate := "2025-01-01" }

/-- Same route as `dupA`, different id and rate. -/
def dupB : TariffDefinition :=
  { id := "admin-modified-2", product := "Rice", exportingFrom := "Thailand",
    importingTo := "Singapore", type := "AHS", rate := 7,
    effectiveDate := "2020-01-01", expirationDate := "2025-01-01" }

end TariffDefinitionsTable

/-- C8 counterexample: with an empty base list and two modified tariffs
sharing the same route triple, neither has a matching base entry, yet
only the second survives: the first is overwritten rather than appended,
so "every modified tariff with no matching base entry is appended after
the base list" fails as stated. -/
theorem mergeTariffs_duplicate_routes_not_appended :
    (∀ m ∈ [TariffDefinitionsTable.dupA, TariffDefinitionsTable.dupB],
      jsFindIndex (fun t => TariffDefinitionsTable.sameRoute t m)
        ([] : List TariffDefinitionsTable.TariffDefinition) = none) ∧
    TariffDefinitionsTable.mergeTariffs []
      [TariffDefinitionsTable.dupA, TariffDefinitionsTable.dupB] =
        [TariffDefinitionsTable.dupB] ∧
    TariffDefinitionsTable.dupA ≠ TariffDefinitionsTable.dupB ∧
    TariffDefinitionsTable.dupA ∉ TariffDefinitionsTable.mergeTariffs []
      [TariffDefinitionsTable.dupA, TariffDefinitionsTable.dupB] := by
  refine ⟨by decide, by decide, by decide, by decide⟩


namespace TariffDefinitionsTable

/-- Loop invariant of the `forEach` in `mergeTariffs`: after applying the
`processed` modified tariffs to `base`, the accumulator `acc` keeps one
slot per base entry with an unchanged route triple, carries the
no-base-match modified tariffs appended after them in order, holds each
processed tariff at the position of its first base match, and leaves base
entries no processed tariff matches untouched. -/
structure MergeInv (base processed acc : List TariffDefinition) : Prop where
  len : base.length ≤ acc.length
  routes : ∀ (i : Nat) (b : TariffDefinition), base[i]? = some b →
    ∃ a, acc[i]? = some a ∧ routeKey a = routeKey b
  extra : acc.drop base.length =
    processed.filter (fun m => (jsFindIndex (fun t => sameRoute t m) base).isNone)
  replaced : ∀ m ∈ processed, ∀ i : Nat,
    jsFindIndex (fun t => sameRoute t m) base = some i → acc[i]? = some m
  untouched : ∀ (i : Nat) (b : TariffDefinition), base[i]? = some b →
    (∀ m ∈ processed, sameRoute b m = false) → acc[i]? = some b

lemma mergeInv_step {base processed acc : List TariffDefinition} {m : TariffDefinition}
    (hdist : ∀ m' ∈ processed, routeKey m' ≠ routeKey m)
    (hinv : MergeInv base processed acc) :
    MergeInv base (processed ++ [m]) (mergeStep acc m) := by
  cases hfb : jsFindIndex (fun t => sameRoute t m) base with
  | some i =>
    obtain ⟨⟨b, hbi, hpb⟩, hfirst⟩ := (jsFindIndex_eq_some_iff _ base i).mp hfb
    have hpb' : sameRoute b m = true := hpb
    have hkb : routeKey b = routeKey m := (sameRoute_iff b m).mp hpb'
    have hib : i < base.length := (List.getElem?_eq_some.mp hbi).1
    have hia : i < acc.length := lt_of_lt_of_le hib hinv.len
    have hacc_i : ∃ a, acc[i]? = some a ∧ sameRoute a m = true := by
      obtain ⟨a, ha, hka⟩ := hinv.routes i b hbi
      exact ⟨a, ha, (sameRoute_iff a m).mpr (hka.trans hkb)⟩
    have hacc_first : ∀ j, j < i → ∃ a, acc[j]? = some a ∧ sameRoute a m = false := by
      intro j hj
      obtain ⟨b', hb', hpb2⟩ := hfirst j hj
      obtain ⟨a, ha, hka⟩ := hinv.routes j b' hb'
      refine ⟨a, ha, ?_⟩
      rw [Bool.eq_false_iff]
      intro hsa
      have hkey : routeKey b' = routeKey m := hka.symm.trans ((sameRoute_iff a m).mp hsa)
      have htrue : sameRoute b' m = true := (sameRoute_iff b' m).mpr hkey
      have hpb2' : sameRoute b' m = false := hpb2
      rw [htrue] at hpb2'
      exact absurd hpb2' (by simp)
    have hfacc : jsFindIndex (fun t => sameRoute t m) acc = some i := by
      apply (jsFindIndex_eq_some_iff _ acc i).mpr
      obtain ⟨a, ha, hsa⟩ := hacc_i
      exact ⟨⟨a, ha, hsa⟩, hacc_first⟩
    have hstep : mergeStep acc m = acc.set i m := by
      unfold mergeStep
      rw [hfacc]
    rw [hstep]
    refine ⟨?_, ?_, ?_, ?_, ?_⟩
    · rw [List.length_set]
      exact hinv.len
    · intro j bj hbj
      by_cases hji : j = i
      · subst hji
        refine ⟨m, List.getElem?_set_self hia, ?_⟩
        have hbjb : bj = b := by
          rw [hbj] at hbi
          exact Option.some.inj hbi
        rw [hbjb]
        exact hkb.symm
      · rw [List.getElem?_set_ne (fun h => hji h.symm)]
        exact hinv.routes j bj hbj
    · rw [drop_set_of_lt _ _ _ _ hib, hinv.extra, List.filter_append]
      have hfm : List.filter
          (fun m' => (jsFindIndex (fun t => sameRoute t m') base).isNone) [m] = [] := by
        simp [List.filter, hfb]
      rw [hfm, List.append_nil]
    · intro m' hm' i' hfi'
      rcases List.mem_append.mp hm' with hm'p | hm'm
      · by_cases hii : i' = i
        · subst hii
          exfalso
          obtain ⟨⟨b2, hb2, hpb2⟩, _⟩ := (jsFindIndex_eq_some_iff _ base i').mp hfi'
          have hb2b : b2 = b := by
            rw [hb2] at hbi
            exact Option.some.inj hbi
          have hpb2' : sameRoute b2 m' = true := hpb2
          have h1 : routeKey b = routeKey m' := by
            rw [← hb2b]
            exact (sameRoute_iff b2 m').mp hpb2'
          exact hdist m' hm'p (h1.symm.trans hkb)
        · rw [List.getElem?_set_ne (fun h => hii h.symm)]
          exact hinv.replaced m' hm'p i' hfi'
      · have hm'eq : m' = m := by simpa using hm'm
        subst hm'eq
        have hii : i' = i := by
          rw [hfb] at hfi'
          exact (Option.some.inj hfi').symm
        subst hii
        exact List.getElem?_set_self hia
    · intro j bj hbj hall
      have hjne : j ≠ i := by
        intro hji
        subst hji
        have hbjb : bj = b := by
          rw [hbj] at hbi
          exact Option.some.inj hbi
        have hsbm : sameRoute bj m = false := hall m (List.mem_append_right _ (by simp))
        rw [hbjb, hpb'] at hsbm
        exact absurd hsbm (by simp)
      rw [List.getElem?_set_ne (fun h => hjne h.symm)]
      exact hinv.untouched j bj hbj (fun m' hm' => hall m' (List.mem_append_left _ hm'))
  | none =>
    have hnone_base : ∀ b' ∈ base, sameRoute b' m = false := fun b' hb' =>
      (jsFindIndex_eq_none_iff _ base).mp hfb b' hb'
    have hfacc : jsFindIndex (fun t => sameRoute t m) acc = none := by
      apply (jsFindIndex_eq_none_iff _ acc).mpr
      intro a ha
      obtain ⟨j, hj⟩ := List.mem_iff_getElem?.mp ha
      show sameRoute a m = false
      rw [Bool.eq_false_iff]
      intro hsa
      have hkam : routeKey a = routeKey m := (sameRoute_iff a m).mp hsa
      by_cases hjb : j < base.length
      · obtain ⟨bj, hbj⟩ : ∃ bj, base[j]? = some bj := ⟨_, List.getElem?_eq_getElem hjb⟩
        obtain ⟨a', ha', hka'⟩ := hinv.routes j bj hbj
        have haa' : a = a' := by
          rw [hj] at ha'
          exact Option.some.inj ha'
        have hkbj : routeKey bj = routeKey m := by
          rw [← hka', ← haa']
          exact hkam
        have h1 : sameRoute bj m = true := (sameRoute_iff bj m).mpr hkbj
        have h2 : sameRoute bj m = false := hnone_base bj (List.mem_iff_getElem?.mpr ⟨j, hbj⟩)
        rw [h1] at h2
        exact absurd h2 (by simp)
      · push_neg at hjb
        have hdrop : a ∈ acc.drop base.length := by
          rw [List.mem_iff_getElem?]
          refine ⟨j - base.length, ?_⟩
          rw [List.getElem?_drop, show base.length + (j - base.length) = j from by omega]
          exact hj
        rw [hinv.extra] at hdrop
        exact hdist a (List.mem_of_mem_filter hdrop) hkam
    have hstep : mergeStep acc m = acc ++ [m] := by
      unfold mergeStep
      rw [hfacc]
    rw [hstep]
    refine ⟨?_, ?_, ?_, ?_, ?_⟩
    · rw [List.length_append]
      exact hinv.len.trans (Nat.le_add_right _ _)
    · intro j bj hbj
      have hjb : j < base.length := (List.getElem?_eq_some.mp hbj).1
      rw [List.getElem?_append_left (lt_of_lt_of_le hjb hinv.len)]
      exact hinv.routes j bj hbj
    · rw [List.drop_append_eq_append_drop, Nat.sub_eq_zero_of_le hinv.len,
        List.drop_zero, hinv.extra, List.filter_append]
      congr 1
      simp [List.filter, hfb]
    · intro m' hm' i' hfi'
      rcases List.mem_append.mp hm' with hm'p | hm'm
      · obtain ⟨⟨b2, hb2, _⟩, _⟩ := (jsFindIndex_eq_some_iff _ base i').mp hfi'
        have hib' : i' < base.length := (List.getElem?_eq_some.mp hb2).1
        rw [List.getElem?_append_left (lt_of_lt_of_le hib' hinv.len)]
        exact hinv.replaced m' hm'p i' hfi'
      · have hm'eq : m' = m := by simpa using hm'm
        subst hm'eq
        rw [hfb] at hfi'
        exact Option.noConfusion hfi'
    · intro j bj hbj hall
      have hjb : j < base.length := (List.getElem?_eq_some.mp hbj).1
      rw [List.getElem?_append_left (lt_of_lt_of_le hjb hinv.len)]
      exact hinv.untouched j bj hbj (fun m' hm' => hall m' (List.mem_append_left _ hm'))

lemma mergeInv_foldl (base : List TariffDefinition) :
    ∀ (remaining processed acc : List TariffDefinition),
      (processed ++ remaining).Pairwise (fun a b => routeKey a ≠ routeKey b) →
      MergeInv base processed acc →
      MergeInv base (processed ++ remaining) (remaining.foldl mergeStep acc)
  | [], processed, acc, _, hinv => by simpa using hinv
  | mt :: rest, processed, acc, hdist, hinv => by
    have hdist_m : ∀ m' ∈ processed, routeKey m' ≠ routeKey mt := by
      rw [List.pairwise_append] at hdist
      intro m' hm'
      exact hdist.2.2 m' hm' mt (List.mem_cons_self mt rest)
    have hres := mergeInv_foldl base rest (processed ++ [mt]) (mergeStep acc mt)
      (by rw [List.append_assoc, List.singleton_append]; exact hdist)
      (mergeInv_step hdist_m hinv)
    rw [List.append_assoc, List.singleton_append] at hres
    exact hres

/-- Concrete global tariffs for the witness below. -/
def baseG1 : TariffDefinition :=
  { id := "g-1", product := "Rice", exportingFrom := "Thailand",
    importingTo := "Singapore", type := "AHS", rate := 5,
    effectiveDate := "2020-01-01", expirationDate := "2025-01-01" }

/-- A second global tariff on a different route. -/
def baseG2 : TariffDefinition :=
  { id := "g-2", product := "Oranges", exportingFrom := "Vietnam",
    importingTo := "Philippines", type := "MFN", rate := 3,
    effectiveDate := "2020-01-01", expirationDate := "2025-01-01" }

/-- A modified tariff overriding `baseG1`'s route. -/
def modM1 : TariffDefinition :=
  { id := "admin-modified-10", product := "Rice", exportingFrom := "Thailand",
    importingTo := "Singapore", type := "AHS", rate := 9,
    effectiveDate := "2021-01-01", expirationDate := "2026-01-01" }

/-- A modified tariff on a route absent from the base list. -/
def modM2 : TariffDefinition :=
  { id := "admin-modified-11", product := "Wheat", exportingFrom := "India",
    importingTo := "Japan", type := "AHS", rate := 4,
    effectiveDate := "2021-01-01", expirationDate := "2026-01-01" }

end TariffDefinitionsTable

/-- C8 amended: provided the modified tariffs have pairwise distinct
(product, exportingFrom, importingTo) triples, `mergeTariffs` applies
them as overrides: each modified tariff whose triple first matches the
base list at index `i` ends up exactly at index `i` of the result; the
part of the result beyond the base list is exactly the list of modified
tariffs with no base match, in order; and every base entry matched by no
modified tariff is unchanged at its position. (Without the distinctness
proviso the claim fails: see the duplicate-route counterexample.
The inputs are never mutated, which is automatic in this pure
embedding.) -/
theorem mergeTariffs_override_semantics
    (globalTariffs modifiedGlobalTariffs : List TariffDefinitionsTable.TariffDefinition)
    (hdist : modifiedGlobalTariffs.Pairwise
      (fun a b => TariffDefinitionsTable.routeKey a ≠ TariffDefinitionsTable.routeKey b)) :
    (∀ m ∈ modifiedGlobalTariffs, ∀ i,
      jsFindIndex (fun t => TariffDefinitionsTable.sameRoute t m) globalTariffs = some i →
      (TariffDefinitionsTable.mergeTariffs globalTariffs modifiedGlobalTariffs)[i]? =
        some m) ∧
    ((TariffDefinitionsTable.mergeTariffs globalTariffs modifiedGlobalTariffs).drop
        globalTariffs.length =
      modifiedGlobalTariffs.filter
        (fun m => (jsFindIndex (fun t => TariffDefinitionsTable.sameRoute t m)
          globalTariffs).isNone)) ∧
    (∀ (i : Nat) (b : TariffDefinitionsTable.TariffDefinition), globalTariffs[i]? = some b →
      (∀ m ∈ modifiedGlobalTariffs, TariffDefinitionsTable.sameRoute b m = false) →
      (TariffDefinitionsTable.mergeTariffs globalTariffs modifiedGlobalTariffs)[i]? =
        some b) := by
  have h0 : TariffDefinitionsTable.MergeInv globalTariffs [] globalTariffs :=
    ⟨le_refl _, fun i b hb => ⟨b, hb, rfl⟩, by simp [List.drop_length], by simp,
      fun i b hb _ => hb⟩
  have h := TariffDefinitionsTable.mergeInv_foldl globalTariffs modifiedGlobalTariffs []
    globalTariffs (by simpa using hdist) h0
  rw [List.nil_append] at h
  exact ⟨h.replaced, h.extra, h.untouched⟩

/-- C8 amended witness: with two base tariffs and two distinct-route
modified tariffs, the one matching the first base route lands at index 0
of the merged list. -/
theorem mergeTariffs_override_semantics_witness :
    (TariffDefinitionsTable.mergeTariffs
      [TariffDefinitionsTable.baseG1, TariffDefinitionsTable.baseG2]
      [TariffDefinitionsTable.modM1, TariffDefinitionsTable.modM2])[0]? =
      some TariffDefinitionsTable.modM1 :=
  (mergeTariffs_override_semantics
    [TariffDefinitionsTable.baseG1, TariffDefinitionsTable.baseG2]
    [TariffDefinitionsTable.modM1, TariffDefinitionsTable.modM2] (by decide)).1
    TariffDefinitionsTable.modM1 (by decide) 0 (by decide)
